import Mathlib

/-!
Verification of the to-do backend task-management core
(`src/To-do backend with Ts/src/controllers/taskController.ts`, reached
through `src/index.ts` and `src/routes/taskRoutes.ts`).

The embedding models the module-level store (`tasks : Task[]`, `nextId`)
as an explicit `StoreState`, JavaScript request-body values as `JsValue`
(with JavaScript truthiness), `parseInt(s, 10)` as `parseInt10` returning
`none` for NaN, and each exported handler as a pure function from the
incoming data and the current store to the next store plus the HTTP
response it writes.
-/

namespace Todo

/-- A JavaScript value as it can appear in `req.body.title`. -/
inductive JsValue where
  | undefined
  | null
  | bool (b : Bool)
  | num (n : Int)
  | str (s : String)
  deriving DecidableEq, Repr

/-- JavaScript truthiness: `undefined`, `null`, `false`, `0` and `""` are falsy. -/
def jsTruthy : JsValue → Bool
  | .undefined => false
  | .null => false
  | .bool b => b
  | .num n => n != 0
  | .str s => s != ""

/-- `typeof v === 'string'`. -/
def typeofIsString : JsValue → Bool
  | .str _ => true
  | _ => false

/-- The string carried by a string `JsValue` (only read after the
`typeof` check has passed, so the default is never reached). -/
def strVal : JsValue → String
  | .str s => s
  | _ => ""

/-- A stored task record: `{ id, title, completed }`. -/
structure Task where
  id : Nat
  title : String
  completed : Bool
  deriving DecidableEq, Repr

/-- A JSON response body: a single task, the task array, or `{error: msg}`. -/
inductive Body where
  | task (t : Task)
  | tasks (ts : List Task)
  | error (msg : String)
  deriving DecidableEq, Repr

/-- An HTTP response: status code plus JSON body (`res.json` alone is 200). -/
structure Response where
  status : Nat
  body : Body
  deriving DecidableEq, Repr

/-- The module-level mutable state: `let tasks: Task[] = []` and `let nextId = 1`. -/
structure StoreState where
  tasks : List Task
  nextId : Nat
  deriving DecidableEq, Repr

/-- The state at process start: empty task array, counter at 1. -/
def initialState : StoreState := ⟨[], 1⟩

/-- Value of a base-10 digit string. -/
def digitsToNat (ds : List Char) : Nat :=
  ds.foldl (fun a c => a * 10 + (c.toNat - 48)) 0

/-- The digit-run step of `parseInt`: take the longest leading digit run;
no digits means NaN. -/
def parseDigits (cs : List Char) : Option Nat :=
  let ds := cs.takeWhile Char.isDigit
  if ds.isEmpty then none else some (digitsToNat ds)

/-- `parseInt(s, 10)`: skip leading whitespace, read an optional sign and
then a leading base-10 digit run; `none` models the NaN result. -/
def parseInt10 (s : String) : Option Int :=
  match s.data.dropWhile Char.isWhitespace with
  | [] => none
  | c :: rest =>
    if c = '-' then (parseDigits rest).map (fun n => -(Int.ofNat n))
    else if c = '+' then (parseDigits rest).map Int.ofNat
    else (parseDigits (c :: rest)).map Int.ofNat

/-- `t.id === id` where `id` is the `parseInt` result: a NaN id (`none`)
matches nothing. -/
def idEq (pid : Option Int) (n : Nat) : Bool :=
  match pid with
  | none => false
  | some i => i == (n : Int)

/-- First index matched by `p`, as JavaScript `findIndex` (here `none`
models the -1 result). -/
def findIdx (p : Task → Bool) : List Task → Option Nat
  | [] => none
  | t :: ts => if p t then some 0 else (findIdx p ts).map (· + 1)

/-- Handler `getAllTasks`: `res.json(tasks)`. -/
def getAllTasks (st : StoreState) : StoreState × Response :=
  (st, ⟨200, .tasks st.tasks⟩)

/-- Handler `createTask`: validate `title` (`!title || typeof title !== 'string'`),
then push `{id: nextId, title, completed: false}` and increment `nextId`. -/
def createTask (title : JsValue) (st : StoreState) : StoreState × Response :=
  if !jsTruthy title || !typeofIsString title then
    (st, ⟨400, .error "Title is required and must be a string"⟩)
  else
    let task : Task := ⟨st.nextId, strVal title, false⟩
    (⟨st.tasks ++ [task], st.nextId + 1⟩, ⟨201, .task task⟩)

/-- Handler `getTaskById`: parse the id (no NaN check) and scan with
`tasks.find`; a missing match is a 404. -/
def getTaskById (idStr : String) (st : StoreState) : StoreState × Response :=
  let id := parseInt10 idStr
  match st.tasks.find? (fun t => idEq id t.id) with
  | none => (st, ⟨404, .error "Task not found"⟩)
  | some t => (st, ⟨200, .task t⟩)

/-- Handler `markTaskAsDone`: 400 on NaN, 404 when `findIndex` misses,
otherwise set `completed = true` in place and return the updated record. -/
def markTaskAsDone (idStr : String) (st : StoreState) : StoreState × Response :=
  match parseInt10 idStr with
  | none => (st, ⟨400, .error "Invalid ID format"⟩)
  | some id =>
    match findIdx (fun t => idEq (some id) t.id) st.tasks with
    | none => (st, ⟨404, .error "Task not found"⟩)
    | some i =>
      match st.tasks[i]? with
      | none => (st, ⟨404, .error "Task not found"⟩)
      | some t =>
        let t' : Task := ⟨t.id, t.title, true⟩
        (⟨st.tasks.set i t', st.nextId⟩, ⟨200, .task t'⟩)

/-- One request as dispatched by the routing table. -/
inductive Req where
  | create (title : JsValue)
  | list
  | getById (idStr : String)
  | markDone (idStr : String)
  deriving DecidableEq, Repr

/-- Dispatch one request to its handler. -/
def step (st : StoreState) : Req → StoreState × Response
  | .create v => createTask v st
  | .list => getAllTasks st
  | .getById s => getTaskById s st
  | .markDone s => markTaskAsDone s st

/-- The store state after servicing a request sequence from process start. -/
def run (reqs : List Req) : StoreState :=
  reqs.foldl (fun st r => (step st r).1) initialState

/-- Store invariant: the id column is exactly `[1, …, n]` and the counter
sits one past it. -/
def IdsInv (st : StoreState) : Prop :=
  st.tasks.map Task.id = List.range' 1 st.tasks.length ∧
  st.nextId = st.tasks.length + 1

/-- A concrete two-task store used to instantiate the general theorems. -/
def sampleStore : StoreState :=
  ⟨[⟨1, "A", false⟩, ⟨2, "B", false⟩], 3⟩

/-- A concrete store whose single task is already completed. -/
def doneStore : StoreState :=
  ⟨[⟨1, "A", true⟩], 2⟩

/-! ### Helper lemmas about the embedded operations -/

theorem getTaskById_state_eq (idStr : String) (st : StoreState) :
    (getTaskById idStr st).1 = st := by
  simp only [getTaskById]
  split <;> rfl

theorem findIdx_eq_none_iff (p : Task → Bool) (ts : List Task) :
    findIdx p ts = none ↔ ∀ t ∈ ts, p t = false := by
  induction ts with
  | nil => simp [findIdx]
  | cons t ts ih => by_cases h : p t <;> simp [findIdx, h, ih]

theorem findIdx_some_getElem (p : Task → Bool) (ts : List Task) (i : Nat)
    (h : findIdx p ts = some i) : ∃ t, ts[i]? = some t ∧ p t = true := by
  induction ts generalizing i with
  | nil => simp [findIdx] at h
  | cons t ts ih =>
    by_cases hp : p t
    · simp [findIdx, hp] at h
      subst h
      exact ⟨t, by simp, hp⟩
    · simp [findIdx, hp] at h
      obtain ⟨j, hj, hji⟩ := h
      obtain ⟨u, hu, hpu⟩ := ih j hj
      exact ⟨u, by simpa [← hji] using hu, hpu⟩

theorem set_getElem?_self {α : Type} (l : List α) (i : Nat) (a : α)
    (h : l[i]? = some a) : l.set i a = l := by
  induction l generalizing i with
  | nil => simp at h
  | cons x xs ih =>
    cases i with
    | zero =>
      simp at h
      simp [h]
    | succ j =>
      simp at h
      simp [ih j h]

theorem findIdx_set_congr (p : Task → Bool) (ts : List Task) (i : Nat) (a t : Task)
    (hg : ts[i]? = some t) (hp : p a = p t) :
    findIdx p (ts.set i a) = findIdx p ts := by
  induction ts generalizing i with
  | nil => simp at hg
  | cons x xs ih =>
    cases i with
    | zero =>
      simp at hg
      subst hg
      simp only [List.set_cons_zero, findIdx, hp]
    | succ j =>
      simp at hg
      simp only [List.set_cons_succ, findIdx, ih j hg]

theorem markTaskAsDone_nan (idStr : String) (st : StoreState)
    (h : parseInt10 idStr = none) :
    markTaskAsDone idStr st = (st, ⟨400, .error "Invalid ID format"⟩) := by
  simp only [markTaskAsDone, h]

theorem markTaskAsDone_notFound (idStr : String) (st : StoreState) (id : Int)
    (hp : parseInt10 idStr = some id)
    (hf : findIdx (fun t => idEq (some id) t.id) st.tasks = none) :
    markTaskAsDone idStr st = (st, ⟨404, .error "Task not found"⟩) := by
  simp only [markTaskAsDone, hp, hf]

theorem markTaskAsDone_found (idStr : String) (st : StoreState) (id : Int)
    (hp : parseInt10 idStr = some id) (i : Nat) (t : Task)
    (hf : findIdx (fun u => idEq (some id) u.id) st.tasks = some i)
    (hg : st.tasks[i]? = some t) :
    markTaskAsDone idStr st =
      (⟨st.tasks.set i ⟨t.id, t.title, true⟩, st.nextId⟩,
       ⟨200, .task ⟨t.id, t.title, true⟩⟩) := by
  simp only [markTaskAsDone, hp, hf, hg]

theorem createTask_invalid (v : JsValue) (st : StoreState)
    (h : (!jsTruthy v || !typeofIsString v) = true) :
    createTask v st = (st, ⟨400, .error "Title is required and must be a string"⟩) := by
  simp [createTask, h]

theorem createTask_valid (v : JsValue) (st : StoreState)
    (h : (!jsTruthy v || !typeofIsString v) = false) :
    createTask v st =
      (⟨st.tasks ++ [⟨st.nextId, strVal v, false⟩], st.nextId + 1⟩,
       ⟨201, .task ⟨st.nextId, strVal v, false⟩⟩) := by
  simp [createTask, h]

theorem markTaskAsDone_state (idStr : String) (st : StoreState) :
    (markTaskAsDone idStr st).1 = st ∨
    ∃ i t, st.tasks[i]? = some t ∧
      (markTaskAsDone idStr st).1 = ⟨st.tasks.set i ⟨t.id, t.title, true⟩, st.nextId⟩ := by
  cases hp : parseInt10 idStr with
  | none => left; rw [markTaskAsDone_nan idStr st hp]
  | some id =>
    cases hf : findIdx (fun u => idEq (some id) u.id) st.tasks with
    | none => left; rw [markTaskAsDone_notFound idStr st id hp hf]
    | some i =>
      obtain ⟨t, hg, -⟩ := findIdx_some_getElem _ _ _ hf
      right
      exact ⟨i, t, hg, by rw [markTaskAsDone_found idStr st id hp i t hf hg]⟩

theorem step_preserves_idsInv (st : StoreState) (r : Req) (h : IdsInv st) :
    IdsInv (step st r).1 := by
  obtain ⟨hmap, hnext⟩ := h
  cases r with
  | create v =>
    show IdsInv (createTask v st).1
    by_cases hv : (!jsTruthy v || !typeofIsString v) = true
    · rw [createTask_invalid v st hv]; exact ⟨hmap, hnext⟩
    · rw [createTask_valid v st (Bool.not_eq_true _ ▸ hv)]
      refine ⟨?_, by simp [hnext]⟩
      simp only [List.map_append, List.length_append, List.map_cons, List.map_nil,
        List.length_cons, List.length_nil]
      rw [hmap, hnext, List.range'_1_concat]
      simp [Nat.add_comm]
  | list => exact ⟨hmap, hnext⟩
  | getById s =>
    show IdsInv (getTaskById s st).1
    rw [getTaskById_state_eq]; exact ⟨hmap, hnext⟩
  | markDone s =>
    show IdsInv (markTaskAsDone s st).1
    rcases markTaskAsDone_state s st with he | ⟨i, t, hg, he⟩
    · rw [he]; exact ⟨hmap, hnext⟩
    · rw [he]
      refine ⟨?_, by simpa using hnext⟩
      simp only [List.map_set, List.length_set]
      rw [set_getElem?_self _ i t.id (by simp [hg]), hmap]

theorem run_idsInv (reqs : List Req) : IdsInv (run reqs) := by
  suffices h : ∀ st, IdsInv st → IdsInv (reqs.foldl (fun st r => (step st r).1) st) by
    exact h initialState ⟨rfl, rfl⟩
  induction reqs with
  | nil => exact fun st h => h
  | cons r rs ih => exact fun st h => ih _ (step_preserves_idsInv st r h)

theorem getTaskById_notFound (idStr : String) (st : StoreState)
    (h : st.tasks.find? (fun u => idEq (parseInt10 idStr) u.id) = none) :
    getTaskById idStr st = (st, ⟨404, .error "Task not found"⟩) := by
  simp only [getTaskById, h]

theorem getTaskById_found (idStr : String) (st : StoreState) (t : Task)
    (h : st.tasks.find? (fun u => idEq (parseInt10 idStr) u.id) = some t) :
    getTaskById idStr st = (st, ⟨200, .task t⟩) := by
  simp only [getTaskById, h]

/-! ### Claim theorems -/

/-- C1 counterexample: the claim fails at the empty-string title. On
`createTask` with `title = ""` the guard `!title` is taken (the empty
string is falsy), so the handler does not respond 201 and does not append
a task to the empty store. -/
theorem C1_counterexample :
    ¬ ((createTask (JsValue.str "") initialState).2.status = 201 ∧
       (createTask (JsValue.str "") initialState).1.tasks =
         initialState.tasks ++ [⟨1, "", false⟩]) := by
  decide

/-- C1 (amended): for every request body whose `title` is present, of
string type and non-empty, the Create handler succeeds: it responds 201
with the created task and appends `{id: nextId, title, completed: false}`
to the store, incrementing the counter. -/
theorem C1_create_success_nonempty (s : String) (st : StoreState) (h : s ≠ "") :
    createTask (JsValue.str s) st =
      (⟨st.tasks ++ [⟨st.nextId, s, false⟩], st.nextId + 1⟩,
       ⟨201, .task ⟨st.nextId, s, false⟩⟩) := by
  have hc : (!jsTruthy (JsValue.str s) || !typeofIsString (JsValue.str s)) = false := by
    simp [jsTruthy, typeofIsString, h]
  simpa [strVal] using createTask_valid (JsValue.str s) st hc

/-- Witness for C1 (amended) at `title = "Buy milk"` on the empty store. -/
theorem C1_witness :
    createTask (JsValue.str "Buy milk") initialState =
      (⟨[⟨1, "Buy milk", false⟩], 2⟩, ⟨201, .task ⟨1, "Buy milk", false⟩⟩) :=
  C1_create_success_nonempty "Buy milk" initialState (by decide)

/-- C2: in every state reachable by any request sequence from the empty
store — in particular after any sequence of successful Create calls — the
stored id column is exactly `[1, 2, …, n]` (strictly increasing from 1,
no gaps, no repeats), and the counter sits one past it, so no id is ever
reused. -/
theorem C2_ids_strictly_increasing (reqs : List Req) :
    (run reqs).tasks.map Task.id = List.range' 1 (run reqs).tasks.length ∧
    (run reqs).nextId = (run reqs).tasks.length + 1 :=
  run_idsInv reqs

/-- C4: whenever `title` is not of string type — which includes the absent
case, where destructuring yields `undefined` — the Create handler responds
400 with error "Title is required and must be a string" and returns the
store completely unchanged. -/
theorem C4_create_invalid_title (v : JsValue) (st : StoreState)
    (h : typeofIsString v = false) :
    createTask v st = (st, ⟨400, .error "Title is required and must be a string"⟩) :=
  createTask_invalid v st (by simp [h])

/-- Witness for C4 at the absent title (`undefined`) on the empty store. -/
theorem C4_witness :
    createTask JsValue.undefined initialState =
      (initialState, ⟨400, Body.error "Title is required and must be a string"⟩) :=
  C4_create_invalid_title JsValue.undefined initialState (by decide)

/-- C8: the List handler always succeeds: on every store state it responds
200 with the full task sequence in insertion order and leaves the store
unchanged. -/
theorem C8_list_handler (st : StoreState) :
    getAllTasks st = (st, ⟨200, Body.tasks st.tasks⟩) := rfl

/-- C3: across every single request step, a task slot that was empty and
becomes occupied holds a task with `completed = false` (creation starts
unfinished), and an occupied slot keeps its `id` and `title`, while its
`completed` flag either stays what it was or flips from `false` to `true`,
the latter only under a MarkDone request; no operation ever sets
`completed` back to `false`. -/
theorem C3_completed_transitions (st : StoreState) (r : Req) (i : Nat) :
    (st.tasks[i]? = none →
      ∀ t', (step st r).1.tasks[i]? = some t' → t'.completed = false) ∧
    (∀ t t', st.tasks[i]? = some t → (step st r).1.tasks[i]? = some t' →
      t'.id = t.id ∧ t'.title = t.title ∧
      (t'.completed = t.completed ∨
        (t.completed = false ∧ t'.completed = true ∧ ∃ s, r = Req.markDone s))) := by
  have unchanged : ∀ st' : StoreState, st'.tasks = st.tasks →
      (st.tasks[i]? = none →
        ∀ t', st'.tasks[i]? = some t' → t'.completed = false) ∧
      (∀ t t', st.tasks[i]? = some t → st'.tasks[i]? = some t' →
        t'.id = t.id ∧ t'.title = t.title ∧
        (t'.completed = t.completed ∨
          (t.completed = false ∧ t'.completed = true ∧ ∃ s, r = Req.markDone s))) := by
    intro st' he
    constructor
    · intro hn t' ht'
      rw [he, hn] at ht'
      exact Option.noConfusion ht'
    · intro t t' ht ht'
      rw [he, ht] at ht'
      obtain rfl := Option.some.inj ht'
      exact ⟨rfl, rfl, Or.inl rfl⟩
  cases r with
  | list => exact unchanged st rfl
  | getById s =>
    have he : (step st (Req.getById s)).1.tasks = st.tasks := by
      show (getTaskById s st).1.tasks = st.tasks
      rw [getTaskById_state_eq]
    exact unchanged _ he
  | create v =>
    by_cases hv : (!jsTruthy v || !typeofIsString v) = true
    · have he : (step st (Req.create v)).1.tasks = st.tasks := by
        show (createTask v st).1.tasks = st.tasks
        rw [createTask_invalid v st hv]
      exact unchanged _ he
    · have hc := createTask_valid v st (by simpa using hv)
      constructor
      · intro hn t' ht'
        simp only [step, hc] at ht'
        have hlen : st.tasks.length ≤ i := List.getElem?_eq_none_iff.mp hn
        rw [List.getElem?_append_right hlen] at ht'
        cases hd : i - st.tasks.length with
        | zero =>
          rw [hd] at ht'
          obtain rfl := Option.some.inj ht'
          rfl
        | succ j => rw [hd] at ht'; simp at ht'
      · intro t t' ht ht'
        simp only [step, hc] at ht'
        have hlt : i < st.tasks.length := by
          rcases List.getElem?_eq_some_iff.mp ht with ⟨h, -⟩
          exact h
        rw [List.getElem?_append_left hlt, ht] at ht'
        obtain rfl := Option.some.inj ht'
        exact ⟨rfl, rfl, Or.inl rfl⟩
  | markDone s =>
    cases hp : parseInt10 s with
    | none =>
      have he : (step st (Req.markDone s)).1.tasks = st.tasks := by
        show (markTaskAsDone s st).1.tasks = st.tasks
        rw [markTaskAsDone_nan s st hp]
      exact unchanged _ he
    | some id =>
      cases hf : findIdx (fun u => idEq (some id) u.id) st.tasks with
      | none =>
        have he : (step st (Req.markDone s)).1.tasks = st.tasks := by
          show (markTaskAsDone s st).1.tasks = st.tasks
          rw [markTaskAsDone_notFound s st id hp hf]
        exact unchanged _ he
      | some j =>
        obtain ⟨u, hu, hpu⟩ := findIdx_some_getElem _ _ _ hf
        have hm := markTaskAsDone_found s st id hp j u hf hu
        constructor
        · intro hn t' ht'
          simp only [step, hm] at ht'
          have hlen : st.tasks.length ≤ i := List.getElem?_eq_none_iff.mp hn
          rw [List.getElem?_eq_none (by simpa using hlen)] at ht'
          exact Option.noConfusion ht'
        · intro t t' ht ht'
          simp only [step, hm] at ht'
          by_cases hij : i = j
          · subst hij
            obtain rfl : u = t := by
              rw [hu] at ht
              exact Option.some.inj ht
            have hlt : i < st.tasks.length := by
              rcases List.getElem?_eq_some_iff.mp hu with ⟨h, -⟩
              exact h
            rw [List.getElem?_set_self hlt] at ht'
            obtain rfl := Option.some.inj ht'
            refine ⟨rfl, rfl, ?_⟩
            by_cases hcc : u.completed = true
            · exact Or.inl (by rw [hcc])
            · exact Or.inr ⟨by simpa using hcc, rfl, s, rfl⟩
          · rw [List.getElem?_set_ne (fun h => hij h.symm), ht] at ht'
            obtain rfl := Option.some.inj ht'
            exact ⟨rfl, rfl, Or.inl rfl⟩

/-- Witness for C3: marking task 1 done in a one-task store flips exactly
its `completed` flag, keeping id and title. -/
theorem C3_witness :
    (⟨1, "A", true⟩ : Task).id = (⟨1, "A", false⟩ : Task).id ∧
    (⟨1, "A", true⟩ : Task).title = (⟨1, "A", false⟩ : Task).title ∧
    ((⟨1, "A", true⟩ : Task).completed = (⟨1, "A", false⟩ : Task).completed ∨
      ((⟨1, "A", false⟩ : Task).completed = false ∧
       (⟨1, "A", true⟩ : Task).completed = true ∧
       ∃ s, Req.markDone "1" = Req.markDone s)) :=
  (C3_completed_transitions ⟨[⟨1, "A", false⟩], 2⟩ (Req.markDone "1") 0).2
    ⟨1, "A", false⟩ ⟨1, "A", true⟩ (by decide) (by decide)

/-- C5: the MarkDone handler responds 400 "Invalid ID format" exactly when
base-10 parsing of the id segment yields NaN; with a parsed id it responds
404 "Task not found" when no stored task has that id, and when one does it
sets that task's `completed` to `true` in place and responds 200 with the
updated record; in both error cases the store is returned unchanged. -/
theorem C5_markDone_spec (idStr : String) (st : StoreState) :
    ((markTaskAsDone idStr st).2.status = 400 ↔ parseInt10 idStr = none) ∧
    (parseInt10 idStr = none →
      markTaskAsDone idStr st = (st, ⟨400, .error "Invalid ID format"⟩)) ∧
    (∀ id, parseInt10 idStr = some id →
      ((∀ t ∈ st.tasks, idEq (some id) t.id = false) →
        markTaskAsDone idStr st = (st, ⟨404, .error "Task not found"⟩)) ∧
      (∀ i t, findIdx (fun u => idEq (some id) u.id) st.tasks = some i →
        st.tasks[i]? = some t →
        markTaskAsDone idStr st =
          (⟨st.tasks.set i ⟨t.id, t.title, true⟩, st.nextId⟩,
           ⟨200, .task ⟨t.id, t.title, true⟩⟩))) := by
  refine ⟨⟨?_, ?_⟩, fun h => markTaskAsDone_nan idStr st h, fun id hp =>
    ⟨fun hall => markTaskAsDone_notFound idStr st id hp
        ((findIdx_eq_none_iff _ _).mpr hall),
     fun i t hf hg => markTaskAsDone_found idStr st id hp i t hf hg⟩⟩
  · intro h400
    by_contra hne
    cases hp : parseInt10 idStr with
    | none => exact hne hp
    | some id =>
      cases hf : findIdx (fun u => idEq (some id) u.id) st.tasks with
      | none =>
        rw [markTaskAsDone_notFound idStr st id hp hf] at h400
        simp at h400
      | some i =>
        obtain ⟨t, hg, -⟩ := findIdx_some_getElem _ _ _ hf
        rw [markTaskAsDone_found idStr st id hp i t hf hg] at h400
        simp at h400
  · intro hp
    rw [markTaskAsDone_nan idStr st hp]

/-- Witness for C5 at the unparseable id "abc" on the empty store. -/
theorem C5_witness :
    markTaskAsDone "abc" initialState =
      (initialState, ⟨400, Body.error "Invalid ID format"⟩) :=
  (C5_markDone_spec "abc" initialState).2.1 (by decide)

/-- C6: the GetById handler never responds 400 and never changes the
store: an unparseable id (NaN) matches no record and yields 404
"Task not found", a parsed id with no matching record yields the same 404,
a matching record is returned with 200, and in particular `GetById(999)`
on the empty store returns 404. -/
theorem C6_getById_spec (idStr : String) (st : StoreState) :
    ((getTaskById idStr st).1 = st) ∧
    ((getTaskById idStr st).2.status ≠ 400) ∧
    (parseInt10 idStr = none →
      getTaskById idStr st = (st, ⟨404, .error "Task not found"⟩)) ∧
    (st.tasks.find? (fun u => idEq (parseInt10 idStr) u.id) = none →
      getTaskById idStr st = (st, ⟨404, .error "Task not found"⟩)) ∧
    (∀ t, st.tasks.find? (fun u => idEq (parseInt10 idStr) u.id) = some t →
      getTaskById idStr st = (st, ⟨200, .task t⟩)) ∧
    getTaskById "999" initialState = (initialState, ⟨404, .error "Task not found"⟩) := by
  refine ⟨getTaskById_state_eq idStr st, ?_, fun hp => ?_,
    fun h => getTaskById_notFound idStr st h,
    fun t h => getTaskById_found idStr st t h, by decide⟩
  · cases hfind : st.tasks.find? (fun u => idEq (parseInt10 idStr) u.id) with
    | none => rw [getTaskById_notFound idStr st hfind]; simp
    | some t => rw [getTaskById_found idStr st t hfind]; simp
  · refine getTaskById_notFound idStr st ?_
    simp only [hp]
    exact List.find?_eq_none.mpr (fun u _ => by simp [idEq])

/-- Witness for C6 at the unparseable id "abc" on the empty store. -/
theorem C6_witness :
    getTaskById "abc" initialState =
      (initialState, ⟨404, Body.error "Task not found"⟩) :=
  (C6_getById_spec "abc" initialState).2.2.1 (by decide)

/-- C7: MarkDone is idempotent on an existing id: the first call returns
200 with the record marked completed, the second call returns the same 200
response, the store after the second call equals the store after the
first, and on an already-completed task the first call is itself a no-op
on the store while still returning 200 with the completed record. -/
theorem C7_markDone_idempotent (idStr : String) (st : StoreState) (id : Int)
    (hp : parseInt10 idStr = some id) (i : Nat) (t : Task)
    (hf : findIdx (fun u => idEq (some id) u.id) st.tasks = some i)
    (hg : st.tasks[i]? = some t) :
    (markTaskAsDone idStr st).2 = ⟨200, .task ⟨t.id, t.title, true⟩⟩ ∧
    (markTaskAsDone idStr (markTaskAsDone idStr st).1).2 =
      (markTaskAsDone idStr st).2 ∧
    (markTaskAsDone idStr (markTaskAsDone idStr st).1).1 =
      (markTaskAsDone idStr st).1 ∧
    (t.completed = true → (markTaskAsDone idStr st).1 = st) := by
  have hm1 := markTaskAsDone_found idStr st id hp i t hf hg
  have hlt : i < st.tasks.length := by
    rcases List.getElem?_eq_some_iff.mp hg with ⟨h, -⟩
    exact h
  have hf2 : findIdx (fun u => idEq (some id) u.id)
      (st.tasks.set i ⟨t.id, t.title, true⟩) = some i := by
    rw [findIdx_set_congr (fun u => idEq (some id) u.id) st.tasks i
      ⟨t.id, t.title, true⟩ t hg rfl]
    exact hf
  have hg2 : (st.tasks.set i ⟨t.id, t.title, true⟩)[i]? = some ⟨t.id, t.title, true⟩ :=
    List.getElem?_set_self hlt
  have hm2 := markTaskAsDone_found idStr
    ⟨st.tasks.set i ⟨t.id, t.title, true⟩, st.nextId⟩ id hp i ⟨t.id, t.title, true⟩ hf2 hg2
  refine ⟨by rw [hm1], ?_, ?_, ?_⟩
  · rw [hm1]
    show (markTaskAsDone idStr ⟨st.tasks.set i ⟨t.id, t.title, true⟩, st.nextId⟩).2 = _
    rw [hm2]
  · rw [hm1]
    show (markTaskAsDone idStr ⟨st.tasks.set i ⟨t.id, t.title, true⟩, st.nextId⟩).1 = _
    rw [hm2]
    show (⟨(st.tasks.set i ⟨t.id, t.title, true⟩).set i ⟨t.id, t.title, true⟩,
      st.nextId⟩ : StoreState) = _
    rw [List.set_set]
  · intro hc
    rw [hm1]
    have htt : (⟨t.id, t.title, true⟩ : Task) = t := by
      obtain ⟨a, b, c⟩ := t
      have hc' : c = true := hc
      rw [hc']
    show (⟨st.tasks.set i ⟨t.id, t.title, true⟩, st.nextId⟩ : StoreState) = st
    rw [htt, set_getElem?_self st.tasks i t hg]

/-- Witness for C7: marking done the already-completed task 1 returns 200
with the completed record twice and leaves the store untouched. -/
theorem C7_witness :
    (markTaskAsDone "1" doneStore).2 = ⟨200, Body.task ⟨1, "A", true⟩⟩ ∧
    (markTaskAsDone "1" (markTaskAsDone "1" doneStore).1).2 =
      (markTaskAsDone "1" doneStore).2 ∧
    (markTaskAsDone "1" (markTaskAsDone "1" doneStore).1).1 =
      (markTaskAsDone "1" doneStore).1 ∧
    ((⟨1, "A", true⟩ : Task).completed = true →
      (markTaskAsDone "1" doneStore).1 = doneStore) :=
  C7_markDone_idempotent "1" doneStore 1 (by decide) 0 ⟨1, "A", true⟩
    (by decide) (by decide)

/-- C9: when MarkDone succeeds it changes only the `completed` flag of the
matched task: the id counter, the sequence length, every other slot, and
the matched task's id and title are unchanged. -/
theorem C9_markDone_frame (idStr : String) (st : StoreState) (id : Int)
    (hp : parseInt10 idStr = some id) (i : Nat) (t : Task)
    (hf : findIdx (fun u => idEq (some id) u.id) st.tasks = some i)
    (hg : st.tasks[i]? = some t) :
    ((markTaskAsDone idStr st).1.nextId = st.nextId) ∧
    ((markTaskAsDone idStr st).1.tasks.length = st.tasks.length) ∧
    ((markTaskAsDone idStr st).1.tasks[i]? = some ⟨t.id, t.title, true⟩) ∧
    (∀ j, j ≠ i → (markTaskAsDone idStr st).1.tasks[j]? = st.tasks[j]?) := by
  have hm := markTaskAsDone_found idStr st id hp i t hf hg
  have hlt : i < st.tasks.length := by
    rcases List.getElem?_eq_some_iff.mp hg with ⟨h, -⟩
    exact h
  rw [hm]
  exact ⟨rfl, List.length_set _ _ _, List.getElem?_set_self hlt,
    fun j hj => List.getElem?_set_ne (fun h => hj h.symm)⟩

/-- Witness for C9: marking task 1 done in the two-task store leaves the
second slot untouched. -/
theorem C9_witness :
    (markTaskAsDone "1" sampleStore).1.tasks[1]? = sampleStore.tasks[1]? :=
  (C9_markDone_frame "1" sampleStore 1 (by decide) 0 ⟨1, "A", false⟩
    (by decide) (by decide)).2.2.2 1 (by decide)

theorem digit_not_whitespace (c : Char) (h : c.isDigit = true) :
    c.isWhitespace = false := by
  simp only [Char.isDigit, Bool.and_eq_true, decide_eq_true_eq] at h
  obtain ⟨ha, hb⟩ := h
  simp only [Char.isWhitespace, Bool.or_eq_false_iff, decide_eq_false_iff_not]
  refine ⟨⟨⟨?_, ?_⟩, ?_⟩, ?_⟩ <;> intro hc <;> subst hc <;>
    exact absurd ha (by decide)

theorem digit_ne_sign (c : Char) (h : c.isDigit = true) : c ≠ '-' ∧ c ≠ '+' := by
  constructor <;> intro hc <;> subst hc <;> exact absurd h (by decide)

theorem takeWhile_digits_append (ds rest : List Char)
    (h2 : ∀ c ∈ ds, c.isDigit = true)
    (h3 : ∀ c, rest.head? = some c → c.isDigit = false) :
    (ds ++ rest).takeWhile Char.isDigit = ds := by
  induction ds with
  | nil =>
    simp only [List.nil_append]
    cases rest with
    | nil => rfl
    | cons c cs =>
      have hc := h3 c rfl
      simp [List.takeWhile_cons, hc]
  | cons d ds ih =>
    have hd : d.isDigit = true := h2 d (by simp)
    simp only [List.cons_append, List.takeWhile_cons, hd, if_true]
    rw [ih (fun c hc => h2 c (by simp [hc]))]

theorem parseInt10_digits_append (ds rest : List Char)
    (h1 : ds ≠ []) (h2 : ∀ c ∈ ds, c.isDigit = true)
    (h3 : ∀ c, rest.head? = some c → c.isDigit = false) :
    parseInt10 ⟨ds ++ rest⟩ = some (Int.ofNat (digitsToNat ds)) := by
  cases ds with
  | nil => exact absurd rfl h1
  | cons d ds' =>
    have hd : d.isDigit = true := h2 d (by simp)
    have hw : d.isWhitespace = false := digit_not_whitespace d hd
    obtain ⟨hm, hpl⟩ := digit_ne_sign d hd
    have hdrop : (d :: (ds' ++ rest)).dropWhile Char.isWhitespace
        = d :: (ds' ++ rest) := by
      simp [List.dropWhile_cons, hw]
    have hdigits : parseDigits (d :: (ds' ++ rest)) = some (digitsToNat (d :: ds')) := by
      have htake : (d :: (ds' ++ rest)).takeWhile Char.isDigit = d :: ds' := by
        have := takeWhile_digits_append (d :: ds') rest h2 h3
        simpa using this
      simp only [parseDigits, htake]
      rfl
    simp only [parseInt10, List.cons_append]
    rw [hdrop]
    simp only [if_neg hm, if_neg hpl, hdigits, Option.map_some']

theorem parseInt10_digits (ds : List Char) (h1 : ds ≠ [])
    (h2 : ∀ c ∈ ds, c.isDigit = true) :
    parseInt10 ⟨ds⟩ = some (Int.ofNat (digitsToNat ds)) := by
  have h := parseInt10_digits_append ds [] h1 h2 (fun c hc => by simp at hc)
  simpa using h

/-- C10: id parsing in GetById and MarkDone is lenient: for a path segment
made of a non-empty base-10 digit run followed by non-digit trailing
characters, `parseInt` returns the value of the digit prefix, and both
handlers behave exactly as they would on the digit prefix alone — the
request operates on the task with that numeric id instead of being
rejected as unparseable. -/
theorem C10_lenient_id_parse (ds rest : List Char) (st : StoreState)
    (h1 : ds ≠ []) (h2 : ∀ c ∈ ds, c.isDigit = true)
    (h3 : ∀ c, rest.head? = some c → c.isDigit = false) :
    parseInt10 ⟨ds ++ rest⟩ = some (Int.ofNat (digitsToNat ds)) ∧
    markTaskAsDone ⟨ds ++ rest⟩ st = markTaskAsDone ⟨ds⟩ st ∧
    getTaskById ⟨ds ++ rest⟩ st = getTaskById ⟨ds⟩ st := by
  have e1 := parseInt10_digits_append ds rest h1 h2 h3
  have e2 := parseInt10_digits ds h1 h2
  have e : parseInt10 ⟨ds ++ rest⟩ = parseInt10 ⟨ds⟩ := by rw [e1, e2]
  exact ⟨e1, by simp only [markTaskAsDone, e], by simp only [getTaskById, e]⟩

/-- Witness for C10 at the segment "1abc" on the two-task store: it parses
to 1 and acts exactly like "1". -/
theorem C10_witness :
    parseInt10 ⟨['1'] ++ ['a', 'b', 'c']⟩ = some (Int.ofNat (digitsToNat ['1'])) ∧
    markTaskAsDone ⟨['1'] ++ ['a', 'b', 'c']⟩ sampleStore =
      markTaskAsDone ⟨['1']⟩ sampleStore ∧
    getTaskById ⟨['1'] ++ ['a', 'b', 'c']⟩ sampleStore =
      getTaskById ⟨['1']⟩ sampleStore :=
  C10_lenient_id_parse ['1'] ['a', 'b', 'c'] sampleStore (by decide) (by decide)
    (by decide)

end Todo
